import Mathlib

/-!
Shallow embedding of `spyder/widgets/collectionseditor.py` (the collections
editor: collection-to-table adapter, paging, sorting, filter/sort proxy and
the generic-object proxy), together with theorems settling the frozen claims.

Machine integers do not occur (Python ints are unbounded); Python exceptions
are modelled with `Except`; the Qt plumbing (signals, repaints) carries no
data-model state and is dropped.  Helper functions that live outside `src/`
(`sort_against`, `try_to_eval`, `get_search_regex`, `get_size`,
`get_human_readable_type`) are modelled from the spec, as marked on each.
-/

/-- Python exception classes relevant to the embedded code paths. -/
inductive PyExcClass where
  | typeError
  | attributeError
  | valueError
  | notImplementedError
  | keyError
  | indexError
  | runtimeError
  | other (nm : String)
deriving DecidableEq, Repr

/-- A raised Python exception: class plus message (`str(e)`). -/
structure PyExc where
  cls : PyExcClass
  msg : String
deriving DecidableEq, Repr

/-- Python values appearing in the collections handled by the editor:
integers, strings, byte strings, `None`, lists and tuples.  (Floats, arrays
and frames are outside the embedded universe; where the claims need their
behaviour the relevant error classes are threaded explicitly.) -/
inductive PyVal where
  | int (n : Int)
  | str (s : String)
  | bytes (b : List Nat)
  | none
  | list (xs : List PyVal)
  | tuple (xs : List PyVal)

namespace PyVal

/-- `isinstance(v, str)`. -/
def isStr : PyVal → Bool
  | .str _ => true
  | _ => false

end PyVal

mutual

/-- Python `==` on the embedded values.  Comparison for equality between
built-in values never raises; cross-type `==` is `False`. -/
def pyEq : PyVal → PyVal → Bool
  | .int a, .int b => a == b
  | .str a, .str b => a == b
  | .bytes a, .bytes b => a == b
  | .none, .none => true
  | .list as, .list bs => pyEqList as bs
  | .tuple as, .tuple bs => pyEqList as bs
  | _, _ => false

/-- Elementwise `==` of two Python sequences (same length required). -/
def pyEqList : List PyVal → List PyVal → Bool
  | [], [] => true
  | a :: as, b :: bs => pyEq a b && pyEqList as bs
  | _, _ => false

end

/-- Lexicographic `<` on lists of naturals (Python bytes comparison). -/
def natListLt : List Nat → List Nat → Bool
  | [], [] => false
  | [], _ :: _ => true
  | _ :: _, [] => false
  | a :: as, b :: bs => if a = b then natListLt as bs else decide (a < b)

mutual

/-- Python `a < b` on the embedded values.  Same-type comparisons of int,
str and bytes succeed; sequence comparison is lexicographic, locating the
first non-`==` pair and ordering by `<` there; every cross-type comparison
(and any comparison involving `None`) raises `TypeError` — on the built-in
types embedded here `<` raises no other exception class. -/
def pyLtE : PyVal → PyVal → Except PyExc Bool
  | .int a, .int b => .ok (decide (a < b))
  | .str a, .str b => .ok (decide (a < b))
  | .bytes a, .bytes b => .ok (natListLt a b)
  | .list as, .list bs => pyLtListE as bs
  | .tuple as, .tuple bs => pyLtListE as bs
  | _, _ => .error ⟨.typeError, "'<' not supported between instances"⟩

/-- Python lexicographic `<` between two sequences: skip `==` pairs, decide
at the first mismatch, a strict prefix is smaller. -/
def pyLtListE : List PyVal → List PyVal → Except PyExc Bool
  | [], [] => .ok false
  | [], _ :: _ => .ok true
  | _ :: _, [] => .ok false
  | a :: as, b :: bs => if pyEq a b then pyLtListE as bs else pyLtE a b

end

/-! ## Natural sorting (`natsort`, collectionseditor.py lines 144-152) -/

/-- The character class `[0-9]` of the regex in `natsort`. -/
def isAsciiDigit (c : Char) : Bool := decide ('0' ≤ c) && decide (c ≤ '9')

/-- One `foldr` step of `re.split('([0-9]+)', s)`: prepend character `c` to
the split of the remaining suffix.  The accumulator is the alternating
text/digit-run segment list of the suffix (text segments at even positions,
the head is always a text segment). -/
def splitStep (c : Char) (acc : List (List Char)) : List (List Char) :=
  if isAsciiDigit c then
    match acc with
    | [] :: d :: rest => [] :: (c :: d) :: rest
    | _ => [] :: [c] :: acc
  else
    match acc with
    | t :: rest => (c :: t) :: rest
    | [] => [[c]]

/-- `re.split('([0-9]+)', s)`: the text segments interleaved with the
captured maximal digit runs, including empty text segments at the
boundaries (e.g. `"test3"` ↦ `["test", "3", ""]`). -/
def reSplitDigits (s : String) : List (List Char) :=
  s.data.foldr splitStep [[]]

/-- `int(t)` for a digit run `t`. -/
def decVal (seg : List Char) : Nat :=
  seg.foldl (fun acc c => 10 * acc + (c.toNat - '0'.toNat)) 0

/-- `t.lower()` (ASCII-faithful model of `str.lower`). -/
def lowerSeg (seg : List Char) : String :=
  String.mk (seg.map Char.toLower)

/-- The list comprehension of `natsort`:
`[int(t) if t.isdigit() else t.lower() for t in re.split('([0-9]+)', s)]`.
`str.isdigit` is modelled over the ASCII range (the only digits the
surrounding regex distinguishes). -/
def pyTokens (s : String) : List PyVal :=
  (reSplitDigits s).map (fun seg =>
    if seg ≠ [] && seg.all isAsciiDigit then .int (decVal seg)
    else .str (lowerSeg seg))

/-- `natsort` (collectionseditor.py lines 144-152).  Non-`str`/`bytes`
inputs are returned unchanged; `str` inputs are tokenized.  A `bytes`
input passes the `isinstance(s, (str, bytes))` guard and is then handed to
`re.split` with a `str` pattern, which raises
`TypeError: cannot use a string pattern on a bytes-like object`. -/
def natsort (s : PyVal) : Except PyExc PyVal :=
  match s with
  | .str v => .ok (.list (pyTokens v))
  | .bytes _ =>
      .error ⟨.typeError, "cannot use a string pattern on a bytes-like object"⟩
  | v => .ok v

/-! ## Python sorting primitives

Python's `sorted`/`list.sort` are stable; on a total key order every stable
sort produces the same permutation, so a stable insertion sort is a
faithful model of the successful case.  When a comparison raises, `sorted`
propagates the exception (which pairs get compared before that is
implementation detail; the callers embedded here either swallow the
exception or only depend on length and membership in that case). -/

/-- Stable insertion of `x` into an already sorted list under the monadic
strict comparison `lt`: `x` is placed before the first `y` with `x < y`,
hence after any elements equal to it. -/
def insertE (lt : α → α → Except PyExc Bool) (x : α) :
    List α → Except PyExc (List α)
  | [] => .ok [x]
  | y :: ys => do
      let b ← lt x y
      if b then
        pure (x :: y :: ys)
      else do
        let zs ← insertE lt x ys
        pure (y :: zs)

/-- Stable ascending sort under monadic `lt`, propagating comparison
exceptions (model of Python `sorted(xs)` at a fixed comparison). -/
def sortedAscE (lt : α → α → Except PyExc Bool) (xs : List α) :
    Except PyExc (List α) :=
  xs.foldlM (fun acc x => insertE lt x acc) []

/-- `sorted(xs, reverse=rev)`.  Python's descending sort is stable
(equal elements keep their original order), i.e. an ascending stable sort
under the flipped strict comparison. -/
def pySorted (lt : α → α → Except PyExc Bool) (rev : Bool) (xs : List α) :
    Except PyExc (List α) :=
  sortedAscE (if rev then fun a b => lt b a else lt) xs

/-- `sorted(xs, key=key, reverse=rev)` with comparisons `ltK` on the key
values: decorate each element (key errors propagate, in list order), sort
the decorated pairs comparing keys only, undecorate. -/
def pySortedKeyed (key : α → Except PyExc κ) (ltK : κ → κ → Except PyExc Bool)
    (rev : Bool) (xs : List α) : Except PyExc (List α) := do
  let dec ← xs.mapM (fun x => do
    let k ← key x
    pure (k, x))
  let s ← pySorted (fun a b => ltK a.1 b.1) rev dec
  pure (s.map Prod.snd)

/-- The key function used by `sort_against` and `list.sort(key=sort_key)`:
`sort_key` when given, the identity otherwise (`sort_key=None`). -/
def keyOrId (sortKey : Option (PyVal → Except PyExc PyVal)) :
    PyVal → Except PyExc PyVal :=
  fun v => match sortKey with
  | some f => f v
  | Option.none => .ok v

/-- Modelled from the spec: `sort_against` lives in
`spyder_kernels.utils.nsview`, outside `src/`.  The spec (§4.1) calls it a
stable "sort B by the order induced by A" operation whose raised comparison
errors are swallowed, leaving the array unchanged; concretely it returns
`[item for _, item in sorted(zip(list2, list1), key=..., reverse=...)]`
and any exception yields `list1` unchanged.  `zip` truncates to the shorter
of the two lists. -/
def sort_against (list1 : List α) (list2 : List PyVal) (reverse : Bool)
    (sortKey : Option (PyVal → Except PyExc PyVal)) : List α :=
  match pySortedKeyed (fun p : PyVal × α => keyOrId sortKey p.1) pyLtE reverse
      (list2.zip list1) with
  | .ok l => l.map Prod.snd
  | .error _ => list1

/-- `xs.sort(reverse=rev, key=sort_key)` wrapped in `try: ... except: pass`
(the in-place sorts of `keys`/`types`/`sizes` inside
`ReadOnlyCollectionsModel.sort`).  On a raising comparison CPython leaves
the list holding some permutation of its elements; the claims only depend
on its length and membership, modelled as the list unchanged. -/
def pySortKeyedSwallow (sortKey : Option (PyVal → Except PyExc PyVal))
    (rev : Bool) (xs : List PyVal) : List PyVal :=
  match pySortedKeyed (keyOrId sortKey) pyLtE rev xs with
  | .ok l => l
  | .error _ => xs

/-- `xs.sort(reverse=rev)` for a list of Python strings (the `types`
array): string comparison never raises. -/
def pySortStrSwallow (rev : Bool) (xs : List String) : List String :=
  match pySorted (fun a b : String => .ok (decide (a < b))) rev xs with
  | .ok l => l
  | .error _ => xs

/-! ## Collections

The collection kinds `set_data` dispatches on (collectionseditor.py lines
247-270).  The generic-object branch (`ProxyObject`) is modelled separately
below.  A Python `set`/`frozenset` is carried with its fixed iteration
order (the order `list(data)` materializes). -/

/-- A backing collection, as dispatched by `ReadOnlyCollectionsModel.set_data`. -/
inductive Collection where
  | tuple (xs : List PyVal)
  | list (xs : List PyVal)
  | set (xs : List PyVal)
  | frozenset (xs : List PyVal)
  | dict (entries : List (PyVal × PyVal))

namespace Collection

/-- `len(data)`. -/
def len : Collection → Nat
  | .tuple xs | .list xs | .set xs | .frozenset xs => xs.length
  | .dict es => es.length

/-- `isinstance(data, dict)`. -/
def isDict : Collection → Bool
  | .dict _ => true
  | _ => false

/-- `isinstance(data, (tuple, set, frozenset))`. -/
def isTupleSetFrozen : Collection → Bool
  | .tuple _ | .set _ | .frozenset _ => true
  | _ => false

/-- `data[key]`.  Sequence keys are the non-negative positions the model
itself created (`range(len(data))`); dictionary lookup compares with
Python `==`.  Out-of-model accesses raise in Python and never carry a
value into the adapter arrays; they are given the junk value `None`. -/
def get : Collection → PyVal → PyVal
  | .list xs, .int i | .tuple xs, .int i =>
      if i < 0 then .none else xs.getD i.toNat .none
  | .dict es, k =>
      match es.find? (fun e => pyEq e.1 k) with
      | some e => e.2
      | Option.none => .none
  | _, _ => .none

/-- `entries[key] = value` on an insertion-ordered dict: replace the value
at the first `==`-matching key (keeping the stored key object), append a
new entry otherwise. -/
def setAssoc : List (PyVal × PyVal) → PyVal → PyVal → List (PyVal × PyVal)
  | [], k, v => [(k, v)]
  | e :: es, k, v =>
      if pyEq e.1 k then (e.1, v) :: es else e :: setAssoc es k v

/-- `data[key] = value`.  Lists assign in place at a valid position (an
out-of-range assignment raises `IndexError`, leaving the list unchanged);
dicts update or append.  Item assignment on a tuple/set raises `TypeError`
with the collection unchanged — unreachable through the editor because
such editors are forced read-only (claim C10). -/
def setKey : Collection → PyVal → PyVal → Collection
  | .list xs, .int i, v =>
      .list (if i < 0 then xs else xs.set i.toNat v)
  | .dict es, k, v => .dict (setAssoc es k v)
  | c, _, _ => c

/-- `data.pop(key)` as used by `remove_values`: positional removal for
lists, key removal for dicts, an exception for everything else (`tuple`
has no `pop`, `set.pop` takes no argument). -/
def pop : Collection → PyVal → Except PyExc Collection
  | .list xs, .int i =>
      if 0 ≤ i ∧ i.toNat < xs.length then .ok (.list (xs.eraseIdx i.toNat))
      else .error ⟨.indexError, "pop index out of range"⟩
  | .list _, _ => .error ⟨.typeError, "integer argument expected"⟩
  | .dict es, k =>
      if es.any (fun e => pyEq e.1 k) then
        .ok (.dict (es.eraseP (fun e => pyEq e.1 k)))
      else .error ⟨.keyError, "missing key"⟩
  | .tuple _, _ => .error ⟨.attributeError, "no attribute pop"⟩
  | .set _, _ | .frozenset _, _ =>
      .error ⟨.typeError, "pop takes no arguments"⟩

end Collection

/-- Modelled from the spec: `get_size` lives in
`spyder_kernels.utils.nsview`, outside `src/`.  The spec (§3) only fixes
that every row carries a size descriptor; sized values report their
length, everything else 1. -/
def get_size : PyVal → PyVal
  | .str s => .int s.length
  | .bytes b => .int b.length
  | .list xs => .int xs.length
  | .tuple xs => .int xs.length
  | _ => .int 1

/-- Modelled from the spec: `get_human_readable_type` lives in
`spyder_kernels.utils.nsview`, outside `src/`.  The spec (§3) only fixes
that every row carries a type-name string. -/
def get_human_readable_type : PyVal → String
  | .int _ => "int"
  | .str _ => "str"
  | .bytes _ => "bytes"
  | .none => "NoneType"
  | .list _ => "list"
  | .tuple _ => "tuple"

/-- `to_text_string` / `str(x)` on the embedded values (used for key names
in the finder and for `to_text_string(new_key)` in `copy_item`). -/
def pyStr : PyVal → String
  | .int n => toString n
  | .str s => s
  | .bytes _ => "bytes"
  | .none => "None"
  | .list _ => "list"
  | .tuple _ => "tuple"

/-! ## The adapter: `ReadOnlyCollectionsModel` / `CollectionsModel`

State and operations of the table model (collectionseditor.py lines
200-690), local (non-remote) mode; the Qt reset/insert notifications carry
no model state and are dropped, as are the widget-only fields (`title`,
`header0`, search scores). -/

/-- `LARGE_NROWS` (line 134). -/
def LARGE_NROWS : Nat := 100

/-- `ROWS_TO_LOAD` (line 135). -/
def ROWS_TO_LOAD : Nat := 50

/-- `Qt.SortOrder`. -/
inductive SortOrder where
  | ascending
  | descending
deriving DecidableEq

/-- The data-model state of `ReadOnlyCollectionsModel`. -/
structure ModelState where
  data : Collection
  keys : List PyVal
  sizes : List PyVal
  types : List String
  rows_loaded : Nat
  total_rows : Nat
  previous_sort : Int

/-- The sizes computed by one `set_size_and_type` pass:
`[get_size(data[self.keys[index]]) for index in range(start, stop)]`. -/
def computeSizes (st : ModelState) (start stop : Nat) : List PyVal :=
  (List.range' start (stop - start)).map
    (fun i => get_size (st.data.get (st.keys.getD i .none)))

/-- The types computed by one `set_size_and_type` pass. -/
def computeTypes (st : ModelState) (start stop : Nat) : List String :=
  (List.range' start (stop - start)).map
    (fun i => get_human_readable_type (st.data.get (st.keys.getD i .none)))

/-- `set_size_and_type(start, stop)` (lines 298-330): with no range, the
arrays are rebuilt for `[0, rows_loaded)`; with a range (the `fetch_more`
shape) the new slices are appended. -/
def set_size_and_type (st : ModelState) (startStop : Option (Nat × Nat)) :
    ModelState :=
  match startStop with
  | Option.none =>
      { st with sizes := computeSizes st 0 st.rows_loaded,
                types := computeTypes st 0 st.rows_loaded }
  | some (start, stop) =>
      { st with sizes := st.sizes ++ computeSizes st start stop,
                types := st.types ++ computeTypes st start stop }

/-- `list(range(len(data)))` as `PyVal` keys. -/
def rangeKeys (n : Nat) : List PyVal :=
  (List.range n).map (fun i => PyVal.int (Int.ofNat i))

/-- `set_data(data)` (lines 232-296) with `coll_filter=None`, local mode:
fix the key order (positions for sequence/set kinds, insertion order for
dicts), materialize sets into lists, set `total_rows` and the paging
threshold (`rows_loaded = ROWS_TO_LOAD` when `total_rows > LARGE_NROWS`,
else everything), then build sizes/types for the loaded range.
`set_data` does not touch `previous_sort` (only `__init__` initializes it
to -1), so the current value is threaded through. -/
def set_data (data : Collection) (prevSort : Int) : ModelState :=
  let data' : Collection :=
    match data with
    | .set xs => .list xs
    | .frozenset xs => .list xs
    | d => d
  let keys : List PyVal :=
    match data with
    | .tuple xs | .list xs | .set xs | .frozenset xs => rangeKeys xs.length
    | .dict es => es.map Prod.fst
  let total := keys.length
  let loaded := if total > LARGE_NROWS then ROWS_TO_LOAD else total
  set_size_and_type
    { data := data', keys := keys, sizes := [], types := [],
      rows_loaded := loaded, total_rows := total, previous_sort := prevSort }
    Option.none

/-- The model right after `ReadOnlyCollectionsModel.__init__` (which sets
`previous_sort = -1` and calls `set_data`). -/
def initializeModel (data : Collection) : ModelState :=
  set_data data (-1)

/-- `fetchMore(number_to_fetch)` (lines 454-469): load metadata for up to
`number_to_fetch` (default `ROWS_TO_LOAD`) further rows and advance
`rows_loaded`; a no-op once everything is loaded. -/
def fetchMore (st : ModelState) (number_to_fetch : Option Nat) : ModelState :=
  if st.total_rows ≤ st.rows_loaded then st
  else
    let reminder := st.total_rows - st.rows_loaded
    let items_to_fetch :=
      match number_to_fetch with
      | some n => min reminder n
      | Option.none => min reminder ROWS_TO_LOAD
    let st' := set_size_and_type st
      (some (st.rows_loaded, st.rows_loaded + items_to_fetch))
    { st' with rows_loaded := st.rows_loaded + items_to_fetch }

/-- `load_all` (lines 332-334). -/
def load_all (st : ModelState) : ModelState :=
  fetchMore st (some st.total_rows)

/-- `all_string` (line 371). -/
def allString (xs : List PyVal) : Bool := xs.all PyVal.isStr

/-- The guard of the three-state dict cycle (lines 380-386): ascending
click on the column already sorted, for a dict, with a header present. -/
def sortRedirects (st : ModelState) (column : Int) (order : SortOrder)
    (hasHeader : Bool) : Bool :=
  hasHeader && (order == .ascending) && (column != -1)
    && (st.previous_sort == column) && st.data.isDict

/-- The body of `ReadOnlyCollectionsModel.sort` after the dict-cycle guard
(lines 390-432): record `previous_sort`, then reorder per column.  Column
-1 rebuilds `keys` from the data snapshot (`list(self._data.keys())` —
reached only for dicts; on any other collection that attribute access
raises, with the arrays unchanged at the raise point).  Columns 1 and 2
splice `sort_against`'s result over `keys[:rows_loaded]` (Python slice
assignment accepts a result of any length).  The in-place `.sort()` calls
are wrapped in `try/except: pass`. -/
def sortCore (st0 : ModelState) (column : Int) (order : SortOrder) :
    ModelState :=
  let st := { st0 with previous_sort := column }
  let reverse := order == SortOrder.descending
  let sort_key : Option (PyVal → Except PyExc PyVal) :=
    if allString st.keys then some natsort else Option.none
  if column == -1 then
    match st.data with
    | .dict es => set_size_and_type { st with keys := es.map Prod.fst }
        Option.none
    | _ => st
  else if column == 0 then
    { st with
      sizes := sort_against st.sizes st.keys reverse (some natsort),
      types := sort_against st.types st.keys reverse (some natsort),
      keys := pySortKeyedSwallow sort_key reverse st.keys }
  else if column == 1 then
    { st with
      keys := sort_against st.keys (st.types.map .str) reverse Option.none
        ++ st.keys.drop st.rows_loaded,
      sizes := sort_against st.sizes (st.types.map .str) reverse Option.none,
      types := pySortStrSwallow reverse st.types }
  else if column == 2 then
    { st with
      keys := sort_against st.keys st.sizes reverse Option.none
        ++ st.keys.drop st.rows_loaded,
      types := sort_against st.types st.sizes reverse Option.none,
      sizes := pySortKeyedSwallow Option.none reverse st.sizes }
  else if column == 3 || column == 4 then
    let values := st.keys.map (fun k => st.data.get k)
    { st with
      keys := sort_against st.keys values reverse Option.none,
      sizes := sort_against st.sizes values reverse Option.none,
      types := sort_against st.types values reverse Option.none }
  else st

/-- `sort(column, order)` (lines 336-432).  When the dict-cycle guard
fires, the code sets the header's sort indicator to -1 and returns; with
sorting enabled Qt then invokes `sort(-1, AscendingOrder)` on the model,
which runs the column -1 body.  Otherwise the body runs directly. -/
def modelSort (st : ModelState) (column : Int) (order : SortOrder)
    (hasHeader : Bool) : ModelState :=
  if sortRedirects st column order hasHeader then
    sortCore st (-1) .ascending
  else
    sortCore st column order

/-- `CollectionsModel.set_value` (lines 617-623): write through at the
row's key, recompute that row's size and type in place. -/
def set_value (st : ModelState) (row : Nat) (value : PyVal) : ModelState :=
  let key := st.keys.getD row .none
  { st with
    data := st.data.setKey key value,
    sizes := st.sizes.set row (get_size value),
    types := st.types.set row (get_human_readable_type value) }

/-! ## View-level mutation API (`CollectionsEditorTableView`, `BaseTableView`) -/

/-- `CollectionsEditorTableView.remove_values` (lines 1692-1697): pop each
key in `sorted(keys, reverse=True)` order (descending positions first so
earlier list deletions do not shift later ones).  `sorted` itself, and any
failing `pop`, raise out of the loop. -/
def remove_values (c : Collection) (ks : List PyVal) :
    Except PyExc Collection := do
  let sortedKeys ← pySorted pyLtE true ks
  sortedKeys.foldlM (fun d k => d.pop k) c

/-- `CollectionsEditorTableView.copy_value` (lines 1699-1708): lists append
`data[orig_key]` and then (the dangling `else` pairs with the *second*
`if`) also assign `data[new_key] = data[orig_key]` — for the `new_key =
len(data)` the caller passes, that rewrites the appended slot with the
same value.  Sets would call `data.add(data[orig_key])`, whose
subscription raises `TypeError` (unreachable: set editors are read-only).
Everything else assigns `data[new_key] = data[orig_key]`. -/
def copy_value (c : Collection) (origKey newKey : PyVal) : Collection :=
  let c1 : Collection :=
    match c with
    | .list xs => .list (xs ++ [c.get origKey])
    | d => d
  match c1 with
  | .set xs => .set xs
  | .frozenset xs => .frozenset xs
  | d => d.setKey newKey (d.get origKey)

/-- How one `copy_item` call ended. -/
inductive CopyOutcome where
  | rejectedNonStrKey
  | cancelled
  | noop
  | applied
deriving DecidableEq

/-- `BaseTableView.copy_item(erase_original, new_name)` (lines 1324-1374),
from the point where a single valid selected row with key `origKey` has
been resolved (the selection plumbing above line 1341 mutates nothing).
`newName` is the entered text (`new_name` argument or dialog input;
`Option.none` models a cancelled dialog).  `tryEval` is `try_to_eval` from
`spyder_kernels.utils.nsview` (outside `src/`), kept abstract: it turns
the entered text into the new key object.  A rename of a non-string key
is rejected with a warning before any mutation; an interpreted new key
`==` the source key returns silently before `copy_value`; otherwise the
value is copied and, for a rename, the original key is removed. -/
def copy_item (c : Collection) (origKey : PyVal) (newName : Option String)
    (eraseOriginal : Bool) (tryEval : String → PyVal) :
    Except PyExc (Collection × CopyOutcome) :=
  if eraseOriginal && !origKey.isStr then
    .ok (c, .rejectedNonStrKey)
  else
    let nk0 : Option PyVal :=
      match c with
      | .list _ | .set _ | .frozenset _ => some (.int c.len)
      | _ => newName.map .str
    match nk0 with
    | Option.none => .ok (c, .cancelled)
    | some nkv =>
      if pyStr nkv = "" then .ok (c, .cancelled)
      else
        let newKey := tryEval (pyStr nkv)
        if pyEq newKey origKey then .ok (c, .noop)
        else do
          let c1 := copy_value c origKey newKey
          if eraseOriginal then do
            let c2 ← remove_values c1 [origKey]
            pure (c2, .applied)
          else
            pure (c1, .applied)

/-! ## Read-only forcing (`CollectionsEditorTableView.__init__`, C10) -/

/-- Which model class the view instantiates. -/
inductive ModelClass where
  | readOnly
  | mutableModel
deriving DecidableEq

/-- Line 1662: `self.readonly = readonly or isinstance(data, (tuple, set,
frozenset))`. -/
def effectiveReadonly (data : Collection) (readonlyArg : Bool) : Bool :=
  readonlyArg || data.isTupleSetFrozen

/-- Lines 1663-1664: `ReadOnlyCollectionsModel if self.readonly else
CollectionsModel`. -/
def modelClassFor (data : Collection) (readonlyArg : Bool) : ModelClass :=
  if effectiveReadonly data readonlyArg then .readOnly else .mutableModel

/-- The only model-level mutation entry point, `setData` (lines 680-690).
`ReadOnlyCollectionsModel` does not override `QAbstractTableModel.setData`,
whose default implementation ignores the value and returns `False`;
`CollectionsModel.setData` rejects the first three columns and otherwise
writes through `set_value`. -/
def editorSetData (cls : ModelClass) (st : ModelState) (row col : Nat)
    (v : PyVal) : ModelState × Bool :=
  match cls with
  | .readOnly => (st, false)
  | .mutableModel =>
      if col < 3 then (st, false) else (set_value st row v, true)

/-- `condition_edit` of `BaseTableView.refresh_menu` (lines 1037-1043),
gating the edit / insert-above / insert-below / duplicate / rename
actions. -/
def condition_edit (data : Collection) (readonly : Bool)
    (indexValid hasSelection sameRow : Bool) : Bool :=
  !data.isTupleSetFrozen && indexValid && hasSelection && sameRow
    && !readonly

/-- `condition_remove` of `refresh_menu` (lines 1062-1067). -/
def condition_remove (data : Collection) (readonly : Bool)
    (indexValid hasSelection : Bool) : Bool :=
  !data.isTupleSetFrozen && indexValid && hasSelection && !readonly

/-- The insert/paste enablement of `refresh_menu` (lines 1070-1073). -/
def condition_insert (data : Collection) (readonly : Bool) : Bool :=
  data.isDict && !readonly

/-! ## Filter/sort proxy (`CollectionsCustomSortFilterProxy`) -/

/-- `isPre p l`: `l` starts with `p` (characterwise). -/
def isPre : List Char → List Char → Bool
  | [], _ => true
  | _ :: _, [] => false
  | a :: as, b :: bs => a == b && isPre as bs

/-- `hasSub p l`: `p` occurs contiguously somewhere in `l`. -/
def hasSub (pat : List Char) : List Char → Bool
  | [] => pat.isEmpty
  | c :: rest => isPre pat (c :: rest) || hasSub pat rest

/-- Modelled from the spec: `get_search_regex` lives in
`spyder.utils.stringmatching`, outside `src/`.  Per the spec (§4.4) the
filter predicate is a case-insensitive substring match of the filter text,
and empty text passes everything; the compiled pattern is modelled as the
literal text, matched case-insensitively. -/
structure SearchPattern where
  text : String

/-- Modelled from the spec: see `SearchPattern`. -/
def get_search_regex (text : String) : SearchPattern := ⟨text⟩

/-- `re.search(pattern, s)` for the spec-modelled case-insensitive literal
pattern: did the lowered pattern text occur inside the lowered `s`? -/
def reSearch (pat : SearchPattern) (s : String) : Bool :=
  hasSub (pat.text.data.map Char.toLower) (s.data.map Char.toLower)

/-- The proxy state relevant to filtering. -/
structure ProxyState where
  pattern : SearchPattern

/-- `set_filter(text)` (lines 2324-2327): compile and store the pattern
(`invalidateFilter` only triggers re-evaluation). -/
def set_filter (text : String) : ProxyState :=
  { pattern := get_search_regex text }

/-- `filterAcceptsRow(row_num, parent)` (lines 2329-2345): search the
pattern in the row's key name and type name; the row is accepted unless
both searches fail. -/
def filterAcceptsRow (proxy : ProxyState) (st : ModelState) (row : Nat) :
    Bool :=
  let name := pyStr (st.keys.getD row .none)
  let variable_type := st.types.getD row ""
  let r_name := reSearch proxy.pattern name
  let r_type := reSearch proxy.pattern variable_type
  if !r_name && !r_type then false else true

/-- An arbitrary Python object, seen through `getattr`/`setattr`: each
attribute access either produces a value or raises. -/
structure PyObject where
  getattrF : String → Except PyExc PyVal
  setattrF : String → PyVal → Except PyExc Unit

/-- The error classes `ProxyObject.__getitem__` swallows (line 178). -/
def getitemCaught (c : PyExcClass) : Bool :=
  c == .notImplementedError || c == .attributeError || c == .typeError
    || c == .valueError

/-- `ProxyObject.__getitem__` (lines 166-180): read the attribute,
returning `None` when the read raises `NotImplementedError`,
`AttributeError`, `TypeError` or `ValueError`; any other exception
propagates. -/
def proxyGetitem (obj : PyObject) (key : String) : Except PyExc PyVal :=
  match obj.getattrF key with
  | .ok v => .ok v
  | .error e => if getitemCaught e.cls then .ok .none else .error e

/-- The error classes the first `except` clause of
`ProxyObject.__setitem__` swallows (line 190). -/
def setitemCaught (c : PyExcClass) : Bool :=
  c == .typeError || c == .attributeError || c == .notImplementedError

/-- `ProxyObject.__setitem__` (lines 182-194): write the attribute,
discarding `TypeError`, `AttributeError` and `NotImplementedError`; any
other exception is re-raised unless its message contains
`"cannot set values for"` (the pandas special case), which is also
discarded. -/
def proxySetitem (obj : PyObject) (key : String) (value : PyVal) :
    Except PyExc Unit :=
  match obj.setattrF key value with
  | .ok _ => .ok ()
  | .error e =>
      if setitemCaught e.cls then .ok ()
      else if hasSub "cannot set values for".data e.msg.data then .ok ()
      else .error e

/-! ## Length lemmas for the sorting primitives -/

theorem insertE_ok_length {lt : α → α → Except PyExc Bool} {x : α} :
    ∀ {ys zs : List α}, insertE lt x ys = .ok zs →
      zs.length = ys.length + 1 := by
  intro ys
  induction ys with
  | nil =>
      intro zs h
      simp [insertE] at h
      simp [← h]
  | cons y ys ih =>
      intro zs h
      simp only [insertE] at h
      cases hlt : lt x y with
      | error e => rw [hlt] at h; simp [Bind.bind, Except.bind] at h
      | ok b =>
          rw [hlt] at h
          simp only [Bind.bind, Except.bind] at h
          cases b with
          | true =>
              simp [pure, Except.pure] at h
              simp [← h]
          | false =>
              cases hrec : insertE lt x ys with
              | error e => rw [hrec] at h; simp [pure, Except.pure] at h
              | ok zs' =>
                  rw [hrec] at h
                  simp [pure, Except.pure] at h
                  subst h
                  simp [ih hrec]

theorem sortedAscE_ok_length {lt : α → α → Except PyExc Bool} :
    ∀ {xs ys : List α} {acc : List α},
      List.foldlM (fun acc x => insertE lt x acc) acc xs = .ok ys →
      ys.length = acc.length + xs.length := by
  intro xs
  induction xs with
  | nil =>
      intro ys acc h
      simp [List.foldlM, pure, Except.pure] at h
      simp [← h]
  | cons x xs ih =>
      intro ys acc h
      simp only [List.foldlM] at h
      cases hins : insertE lt x acc with
      | error e => rw [hins] at h; simp [Bind.bind, Except.bind] at h
      | ok acc' =>
          rw [hins] at h
          simp only [Bind.bind, Except.bind] at h
          have := ih h
          rw [this, insertE_ok_length hins]
          simp only [List.length_cons]
          omega

theorem pySorted_ok_length {lt : α → α → Except PyExc Bool} {rev : Bool}
    {xs ys : List α} (h : pySorted lt rev xs = .ok ys) :
    ys.length = xs.length := by
  unfold pySorted sortedAscE at h
  have := sortedAscE_ok_length h
  simpa using this

theorem mapM_ok_length {f : α → Except PyExc β} :
    ∀ {xs : List α} {ys : List β}, xs.mapM f = .ok ys →
      ys.length = xs.length := by
  intro xs
  have aux : ∀ (l : List α) (acc : List β) (ys : List β),
      List.mapM.loop f l acc = .ok ys → ys.length = acc.length + l.length := by
    intro l
    induction l with
    | nil =>
        intro acc ys h
        simp [List.mapM.loop, pure, Except.pure] at h
        simp [← h]
    | cons x xs ih =>
        intro acc ys h
        simp only [List.mapM.loop] at h
        cases hf : f x with
        | error e => rw [hf] at h; simp [Bind.bind, Except.bind] at h
        | ok b =>
            rw [hf] at h
            simp only [Bind.bind, Except.bind] at h
            have := ih (b :: acc) ys h
            simp only [List.length_cons] at this ⊢
            omega
  intro ys h
  have := aux xs [] ys h
  simpa using this

theorem pySortedKeyed_ok_length {key : α → Except PyExc κ}
    {ltK : κ → κ → Except PyExc Bool} {rev : Bool} {xs ys : List α}
    (h : pySortedKeyed key ltK rev xs = .ok ys) : ys.length = xs.length := by
  unfold pySortedKeyed at h
  cases hdec : xs.mapM (fun x => do
      let k ← key x
      pure (k, x)) with
  | error e => rw [hdec] at h; simp [Bind.bind, Except.bind] at h
  | ok dec =>
      rw [hdec] at h
      simp only [Bind.bind, Except.bind] at h
      cases hs : pySorted (fun a b => ltK a.1 b.1) rev dec with
      | error e => rw [hs] at h; simp at h
      | ok s =>
          rw [hs] at h
          simp [pure, Except.pure] at h
          subst h
          rw [List.length_map, pySorted_ok_length hs, mapM_ok_length hdec]

/-- `sort_against` returns either the sorted zip (length the minimum of
the two inputs) or, after a swallowed exception, `list1` itself. -/
theorem sort_against_length (list1 : List α) (list2 : List PyVal)
    (reverse : Bool) (sortKey : Option (PyVal → Except PyExc PyVal)) :
    (sort_against list1 list2 reverse sortKey).length
        = min list2.length list1.length
      ∨ sort_against list1 list2 reverse sortKey = list1 := by
  unfold sort_against
  cases h : pySortedKeyed (fun p : PyVal × α => keyOrId sortKey p.1) pyLtE
      reverse (list2.zip list1) with
  | error e => right; rfl
  | ok l =>
      left
      simp only
      rw [List.length_map, pySortedKeyed_ok_length h, List.length_zip]

theorem pySortKeyedSwallow_length (sortKey : Option (PyVal → Except PyExc PyVal))
    (rev : Bool) (xs : List PyVal) :
    (pySortKeyedSwallow sortKey rev xs).length = xs.length := by
  unfold pySortKeyedSwallow
  cases h : pySortedKeyed (keyOrId sortKey) pyLtE rev xs with
  | error e => rfl
  | ok l => simpa using pySortedKeyed_ok_length h

theorem pySortStrSwallow_length (rev : Bool) (xs : List String) :
    (pySortStrSwallow rev xs).length = xs.length := by
  unfold pySortStrSwallow
  cases h : pySorted (fun a b : String => .ok (decide (a < b))) rev xs with
  | error e => rfl
  | ok l => simpa using pySorted_ok_length h

/-! ## Structural lemmas about the adapter operations -/

theorem computeSizes_length (st : ModelState) (start stop : Nat) :
    (computeSizes st start stop).length = stop - start := by
  simp [computeSizes]

theorem computeTypes_length (st : ModelState) (start stop : Nat) :
    (computeTypes st start stop).length = stop - start := by
  simp [computeTypes]

theorem set_size_and_type_keys (st : ModelState) (ss : Option (Nat × Nat)) :
    (set_size_and_type st ss).keys = st.keys := by
  rcases ss with _ | ⟨a, b⟩ <;> simp [set_size_and_type]

theorem set_size_and_type_data (st : ModelState) (ss : Option (Nat × Nat)) :
    (set_size_and_type st ss).data = st.data := by
  rcases ss with _ | ⟨a, b⟩ <;> simp [set_size_and_type]

theorem set_size_and_type_rows (st : ModelState) (ss : Option (Nat × Nat)) :
    (set_size_and_type st ss).rows_loaded = st.rows_loaded := by
  rcases ss with _ | ⟨a, b⟩ <;> simp [set_size_and_type]

theorem set_size_and_type_total (st : ModelState) (ss : Option (Nat × Nat)) :
    (set_size_and_type st ss).total_rows = st.total_rows := by
  rcases ss with _ | ⟨a, b⟩ <;> simp [set_size_and_type]

theorem set_size_and_type_prev (st : ModelState) (ss : Option (Nat × Nat)) :
    (set_size_and_type st ss).previous_sort = st.previous_sort := by
  rcases ss with _ | ⟨a, b⟩ <;> simp [set_size_and_type]

theorem setAssoc_length_ge (es : List (PyVal × PyVal)) (k v : PyVal) :
    es.length ≤ (Collection.setAssoc es k v).length := by
  induction es with
  | nil => simp [Collection.setAssoc]
  | cons e es ih =>
      by_cases h : pyEq e.1 k = true <;>
        simp [Collection.setAssoc, h] <;> try omega

theorem setKey_len_ge (c : Collection) (k v : PyVal) :
    c.len ≤ (c.setKey k v).len := by
  cases c with
  | list xs =>
      cases k <;> simp [Collection.setKey, Collection.len]
      case int i => split <;> simp
  | dict es => simpa [Collection.setKey, Collection.len] using
      setAssoc_length_ge es k v
  | tuple xs => simp [Collection.setKey, Collection.len]
  | set xs => simp [Collection.setKey, Collection.len]
  | frozenset xs => simp [Collection.setKey, Collection.len]

/-- The fields of a freshly `set_data` state. -/
theorem set_data_fields (c : Collection) (p : Int) :
    (set_data c p).keys.length = c.len
    ∧ (set_data c p).total_rows = c.len
    ∧ (set_data c p).rows_loaded
        = (if c.len > LARGE_NROWS then ROWS_TO_LOAD else c.len)
    ∧ (set_data c p).sizes.length = (set_data c p).rows_loaded
    ∧ (set_data c p).types.length = (set_data c p).rows_loaded
    ∧ (set_data c p).data.len = c.len
    ∧ (set_data c p).previous_sort = p := by
  cases c <;>
    simp [set_data, set_size_and_type, computeSizes_length, computeTypes_length,
      computeSizes, computeTypes, Collection.len, rangeKeys, List.length_map,
      List.length_range]

/-! ## The lockstep invariant (claim C1) -/

/-- The adapter-array invariant that actually holds in every reachable
state: the metadata arrays track `rows_loaded` while `keys` holds at least
all `total_rows` keys (exactly `total_rows` right after `set_data`). -/
def ModelInvariant (st : ModelState) : Prop :=
  st.sizes.length = st.rows_loaded
    ∧ st.types.length = st.rows_loaded
    ∧ st.rows_loaded ≤ st.total_rows
    ∧ st.total_rows ≤ st.keys.length
    ∧ st.total_rows ≤ st.data.len

instance (st : ModelState) : Decidable (ModelInvariant st) := by
  unfold ModelInvariant; infer_instance

theorem set_data_invariant (c : Collection) (p : Int) :
    ModelInvariant (set_data c p) := by
  obtain ⟨h1, h2, h3, h4, h5, h6, _⟩ := set_data_fields c p
  refine ⟨h4, h5, ?_, ?_, ?_⟩
  · rw [h2, h3]
    split <;> simp_all [LARGE_NROWS, ROWS_TO_LOAD] <;> try omega
  · omega
  · omega

theorem fetchMore_invariant (st : ModelState) (n : Option Nat)
    (h : ModelInvariant st) : ModelInvariant (fetchMore st n) := by
  obtain ⟨h1, h2, h3, h4, h5⟩ := h
  unfold fetchMore
  split
  · exact ⟨h1, h2, h3, h4, h5⟩
  · rename_i hlt
    rcases n with _ | n <;>
      refine ⟨?_, ?_, ?_, ?_, ?_⟩ <;>
      simp [set_size_and_type, computeSizes_length, computeTypes_length,
        h1, h2] <;>
      omega

theorem sortCore_invariant (st : ModelState) (col : Int) (ord : SortOrder)
    (h : ModelInvariant st) : ModelInvariant (sortCore st col ord) := by
  obtain ⟨h1, h2, h3, h4, h5⟩ := h
  unfold sortCore
  simp only
  split
  · -- column == -1
    split
    · rename_i es heq
      have h5' : st.total_rows ≤ es.length := by
        rw [heq] at h5
        simpa [Collection.len] using h5
      refine ⟨?_, ?_, ?_, ?_, ?_⟩ <;>
        simp [set_size_and_type, computeSizes_length, computeTypes_length,
          List.length_map, heq, Collection.len] <;>
        omega
    · exact ⟨h1, h2, h3, h4, h5⟩
  · split
    · -- column == 0
      refine ⟨?_, ?_, h3, ?_, h5⟩
      · rcases sort_against_length st.sizes st.keys (ord == SortOrder.descending)
            (some natsort) with hl | hl <;> simp [hl] <;> omega
      · rcases sort_against_length st.types st.keys (ord == SortOrder.descending)
            (some natsort) with hl | hl <;> simp [hl] <;> omega
      · simp [pySortKeyedSwallow_length]; omega
    · split
      · -- column == 1
        refine ⟨?_, ?_, h3, ?_, h5⟩
        · rcases sort_against_length st.sizes (st.types.map PyVal.str)
              (ord == SortOrder.descending) Option.none with hl | hl <;>
            simp [hl] <;> omega
        · simp [pySortStrSwallow_length]; omega
        · rcases sort_against_length st.keys (st.types.map PyVal.str)
              (ord == SortOrder.descending) Option.none with hl | hl <;>
            simp [hl] <;> omega
      · split
        · -- column == 2
          refine ⟨?_, ?_, h3, ?_, h5⟩
          · simp [pySortKeyedSwallow_length]; omega
          · rcases sort_against_length st.types st.sizes
                (ord == SortOrder.descending) Option.none with hl | hl <;>
              simp [hl] <;> omega
          · rcases sort_against_length st.keys st.sizes
                (ord == SortOrder.descending) Option.none with hl | hl <;>
              simp [hl] <;> omega
        · split
          · -- column in [3, 4]
            refine ⟨?_, ?_, h3, ?_, h5⟩
            · rcases sort_against_length st.sizes
                  (st.keys.map (fun k => st.data.get k))
                  (ord == SortOrder.descending) Option.none with hl | hl <;>
                simp [hl] <;> omega
            · rcases sort_against_length st.types
                  (st.keys.map (fun k => st.data.get k))
                  (ord == SortOrder.descending) Option.none with hl | hl <;>
                simp [hl] <;> omega
            · rcases sort_against_length st.keys
                  (st.keys.map (fun k => st.data.get k))
                  (ord == SortOrder.descending) Option.none with hl | hl <;>
                simp [hl] <;> omega
          · exact ⟨h1, h2, h3, h4, h5⟩

theorem modelSort_invariant (st : ModelState) (col : Int) (ord : SortOrder)
    (hh : Bool) (h : ModelInvariant st) :
    ModelInvariant (modelSort st col ord hh) := by
  unfold modelSort
  split <;> exact sortCore_invariant _ _ _ h

theorem set_value_invariant (st : ModelState) (row : Nat) (v : PyVal)
    (h : ModelInvariant st) : ModelInvariant (set_value st row v) := by
  obtain ⟨h1, h2, h3, h4, h5⟩ := h
  refine ⟨?_, ?_, h3, h4, ?_⟩ <;>
    simp [set_value, List.length_set, h1, h2]
  exact le_trans h5 (setKey_len_ge _ _ _)

/-- C1 (amended): after initialization and after every operation the
metadata arrays stay in lockstep with the loaded-row counter —
`len(sizes) == len(types) == loaded_row_count ≤ total_row_count ≤
len(keys)` — and immediately after `set_data` the key array holds exactly
`total_row_count == len(collection)` keys.  The claim's stronger
`len(keys) == loaded_row_count` fails on any collection left partially
loaded (see the counterexample): `set_data` always stores *all* keys and
pages only the metadata arrays. -/
theorem c1_arrays_lockstep :
    (∀ (c : Collection) (p : Int),
        ModelInvariant (set_data c p)
          ∧ (set_data c p).total_rows = (set_data c p).keys.length
          ∧ (set_data c p).keys.length = c.len)
    ∧ (∀ (st : ModelState) (n : Option Nat),
        ModelInvariant st → ModelInvariant (fetchMore st n))
    ∧ (∀ (st : ModelState) (col : Int) (ord : SortOrder) (hh : Bool),
        ModelInvariant st → ModelInvariant (modelSort st col ord hh))
    ∧ (∀ (st : ModelState) (row : Nat) (v : PyVal),
        ModelInvariant st → ModelInvariant (set_value st row v)) := by
  refine ⟨fun c p => ⟨set_data_invariant c p, ?_, ?_⟩,
    fetchMore_invariant, modelSort_invariant, set_value_invariant⟩
  · obtain ⟨h1, h2, _⟩ := set_data_fields c p
    omega
  · exact (set_data_fields c p).1

/-- C1, counterexample to the claim as stated: a list with 101 entries
(one more than `LARGE_NROWS`) has, immediately after initialization, all
101 keys in `keys` but only `ROWS_TO_LOAD = 50` loaded rows, so
`len(keys) == loaded_row_count` is false. -/
theorem c1_counterexample :
    ¬ ((initializeModel (.list (List.replicate 101 (.int 0)))).keys.length
        = (initializeModel (.list (List.replicate 101 (.int 0)))).rows_loaded) := by
  intro h
  have hk := (set_data_fields (.list (List.replicate 101 (.int 0))) (-1)).1
  have hr := (set_data_fields (.list (List.replicate 101 (.int 0))) (-1)).2.2.1
  rw [initializeModel] at h
  rw [hk, hr] at h
  simp [Collection.len, LARGE_NROWS, ROWS_TO_LOAD] at h

/-- C1, witness: the preservation parts of `c1_arrays_lockstep` applied at
a concrete state. -/
theorem c1_arrays_lockstep_witness :
    ModelInvariant (set_value (modelSort (fetchMore
      (initializeModel (.list [.int 3, .str "a"])) (some 1)) 0
        .ascending true) 0 (.int 9)) := by
  apply c1_arrays_lockstep.2.2.2
  apply c1_arrays_lockstep.2.2.1
  apply c1_arrays_lockstep.2.1
  exact (c1_arrays_lockstep.1 (.list [.int 3, .str "a"]) (-1)).1

/-- C2: the paging policy.  `set_data` loads `ROWS_TO_LOAD` rows when the
collection exceeds `LARGE_NROWS` entries and all of them otherwise;
`sort` and `set_value` never change `rows_loaded`; `fetchMore` never
decreases it (and is the only operation that increases it). -/
theorem c2_paging_policy :
    (∀ (c : Collection) (p : Int),
        (set_data c p).rows_loaded
          = if c.len > LARGE_NROWS then ROWS_TO_LOAD else c.len)
    ∧ (∀ (c : Collection) (p : Int), (set_data c p).total_rows = c.len)
    ∧ (∀ (st : ModelState) (col : Int) (ord : SortOrder) (hh : Bool),
        (modelSort st col ord hh).rows_loaded = st.rows_loaded)
    ∧ (∀ (st : ModelState) (row : Nat) (v : PyVal),
        (set_value st row v).rows_loaded = st.rows_loaded)
    ∧ (∀ (st : ModelState) (n : Option Nat),
        st.rows_loaded ≤ (fetchMore st n).rows_loaded) := by
  refine ⟨fun c p => (set_data_fields c p).2.2.1,
    fun c p => (set_data_fields c p).2.1, ?_, ?_, ?_⟩
  · intro st col ord hh
    have core : ∀ (c' : Int) (o' : SortOrder),
        (sortCore st c' o').rows_loaded = st.rows_loaded := by
      intro c' o'
      unfold sortCore
      simp only
      split
      · split
        · simp [set_size_and_type_rows]
        · rfl
      · split
        · rfl
        · split
          · rfl
          · split
            · rfl
            · split <;> rfl
    unfold modelSort
    split <;> exact core _ _
  · intro st row v
    rfl
  · intro st n
    unfold fetchMore
    split
    · exact le_refl _
    · simp [set_size_and_type_rows]

/-- C3: `natsort` does *not* return a result for byte strings — a `bytes`
input passes the `isinstance(s, (str, bytes))` guard and then crashes in
`re.split`, which rejects a `str` pattern on a bytes-like object with
`TypeError` (a Python-2 leftover: the guard admits `bytes` but the
tokenizing branch cannot handle them). -/
theorem c3_natsort_bytes_raises :
    natsort (.bytes [97, 49])
      = .error ⟨.typeError,
          "cannot use a string pattern on a bytes-like object"⟩
    ∧ natsort (.str "a1")
      = .ok (.list [.str "a", .int 1, .str ""])
    ∧ natsort (.int 5) = .ok (.int 5) := by
  refine ⟨rfl, ?_, rfl⟩
  rfl

/-- C10: a `CollectionsEditorTableView` over a tuple, set or frozenset is
forced read-only no matter what `readonly` argument the caller passes: the
forced flag holds, the model class is `ReadOnlyCollectionsModel` (whose
inherited `setData` mutates nothing and reports failure), and every
mutating action of `refresh_menu` — edit, insert above/below, duplicate,
rename (gated by `condition_edit`), remove (`condition_remove`) and
insert/paste (`condition_insert`) — stays disabled for any selection
state. -/
theorem c10_forced_readonly :
    (∀ (xs : List PyVal) (ro : Bool),
        effectiveReadonly (.tuple xs) ro = true
          ∧ effectiveReadonly (.set xs) ro = true
          ∧ effectiveReadonly (.frozenset xs) ro = true
          ∧ modelClassFor (.tuple xs) ro = .readOnly
          ∧ modelClassFor (.set xs) ro = .readOnly
          ∧ modelClassFor (.frozenset xs) ro = .readOnly)
    ∧ (∀ (st : ModelState) (row col : Nat) (v : PyVal),
        editorSetData .readOnly st row col v = (st, false))
    ∧ (∀ (xs : List PyVal) (ro iv hs sr : Bool),
        condition_edit (.tuple xs) ro iv hs sr = false
          ∧ condition_edit (.set xs) ro iv hs sr = false
          ∧ condition_edit (.frozenset xs) ro iv hs sr = false
          ∧ condition_remove (.tuple xs) ro iv hs = false
          ∧ condition_remove (.set xs) ro iv hs = false
          ∧ condition_remove (.frozenset xs) ro iv hs = false
          ∧ condition_insert (.tuple xs) ro = false
          ∧ condition_insert (.set xs) ro = false
          ∧ condition_insert (.frozenset xs) ro = false) := by
  refine ⟨?_, ?_, ?_⟩
  · intro xs ro
    refine ⟨?_, ?_, ?_, ?_, ?_, ?_⟩ <;>
      simp [effectiveReadonly, modelClassFor, Collection.isTupleSetFrozen]
  · intro st row col v
    rfl
  · intro xs ro iv hs sr
    refine ⟨?_, ?_, ?_, ?_, ?_, ?_, ?_, ?_, ?_⟩ <;>
      simp [condition_edit, condition_remove, condition_insert,
        Collection.isTupleSetFrozen, Collection.isDict]

/-! ## Substring characterization for the filter (claim C8) -/

theorem isPre_iff (p : List Char) :
    ∀ (l : List Char), isPre p l = true ↔ ∃ t, l = p ++ t := by
  induction p with
  | nil =>
      intro l
      simp [isPre]
  | cons a as ih =>
      intro l
      cases l with
      | nil =>
          simp [isPre]
      | cons b bs =>
          simp only [isPre, Bool.and_eq_true, beq_iff_eq]
          rw [ih bs]
          constructor
          · rintro ⟨rfl, t, rfl⟩
            exact ⟨t, rfl⟩
          · rintro ⟨t, h⟩
            cases h
            exact ⟨rfl, t, rfl⟩

theorem hasSub_iff (p : List Char) :
    ∀ (l : List Char), hasSub p l = true ↔ ∃ l1 l2, l = l1 ++ p ++ l2 := by
  intro l
  induction l with
  | nil =>
      simp only [hasSub, List.isEmpty_iff]
      constructor
      · rintro rfl
        exact ⟨[], [], rfl⟩
      · rintro ⟨l1, l2, h⟩
        rcases List.append_eq_nil.mp (List.append_eq_nil.mp h.symm).1
          with ⟨-, h2⟩
        exact h2
  | cons c cs ih =>
      simp only [hasSub, Bool.or_eq_true, isPre_iff, ih]
      constructor
      · rintro (⟨t, ht⟩ | ⟨l1, l2, h⟩)
        · exact ⟨[], t, by simpa using ht⟩
        · exact ⟨c :: l1, l2, by simp [h]⟩
      · rintro ⟨l1, l2, h⟩
        cases l1 with
        | nil =>
            left
            exact ⟨l2, by simpa using h⟩
        | cons x l1 =>
            right
            simp at h
            exact ⟨l1, l2, by simp [h.2]⟩

theorem hasSub_nil_pat (l : List Char) : hasSub [] l = true := by
  cases l <;> simp [hasSub, isPre]

/-- The claim's predicate: the filter text occurs, case-insensitively, as
a contiguous substring of `s`. -/
def ciSubstrMatch (text s : String) : Prop :=
  ∃ l1 l2, s.data.map Char.toLower
    = l1 ++ text.data.map Char.toLower ++ l2

/-- C8: after `set_filter(text)`, a row is hidden exactly when both its
key name and its type name fail the case-insensitive substring test
against `text`, and `set_filter("")` accepts every row.  (The regex
builder `get_search_regex` lives outside `src/` and is modelled from the
spec as a case-insensitive literal pattern.) -/
theorem c8_filter_predicate :
    (∀ (text : String) (st : ModelState) (row : Nat),
        filterAcceptsRow (set_filter text) st row = false
          ↔ ¬ ciSubstrMatch text (pyStr (st.keys.getD row .none))
              ∧ ¬ ciSubstrMatch text (st.types.getD row ""))
    ∧ (∀ (st : ModelState) (row : Nat),
        filterAcceptsRow (set_filter "") st row = true) := by
  have hiff : ∀ (p l : List Char),
      hasSub p l = false ↔ ¬ ∃ l1 l2, l = l1 ++ p ++ l2 := by
    intro p l
    rw [← hasSub_iff]
    cases hasSub p l <;> simp
  constructor
  · intro text st row
    have base : filterAcceptsRow (set_filter text) st row = false
        ↔ (hasSub (text.data.map Char.toLower)
              ((pyStr (st.keys.getD row .none)).data.map Char.toLower) = false
            ∧ hasSub (text.data.map Char.toLower)
              ((st.types.getD row "").data.map Char.toLower) = false) := by
      simp only [filterAcceptsRow, set_filter, get_search_regex, reSearch]
      split
      · rename_i h
        simp only [Bool.and_eq_true, Bool.not_eq_true'] at h
        exact iff_of_true rfl h
      · rename_i h
        simp only [Bool.and_eq_true, Bool.not_eq_true'] at h
        simp only [show ((true : Bool) = false) ↔ False by simp, false_iff]
        intro hc
        exact h ⟨hc.1, hc.2⟩
    rw [base, hiff, hiff]
    exact Iff.rfl
  · intro st row
    simp [filterAcceptsRow, set_filter, get_search_regex, reSearch,
      hasSub_nil_pat]

/-- C6: the rename guards.  (1) When `erase_original` is set and the
source key is not a string, `copy_item` warns and returns before touching
the collection.  (2) For a dict, when the interpreted new key
(`try_to_eval` of the entered text, `try_to_eval` kept abstract since it
lives outside `src/`) is `==` to the source key, `copy_item` returns
silently with the collection untouched — no copy, no removal. -/
theorem c6_rename_guards :
    (∀ (c : Collection) (k : PyVal) (nn : Option String)
        (te : String → PyVal),
        k.isStr = false →
        copy_item c k nn true te = .ok (c, .rejectedNonStrKey))
    ∧ (∀ (es : List (PyVal × PyVal)) (k : PyVal) (nn : String)
        (te : String → PyVal) (erase : Bool),
        pyEq (te nn) k = true →
        nn ≠ "" →
        (erase = true → k.isStr = true) →
        copy_item (.dict es) k (some nn) erase te
          = .ok (.dict es, .noop)) := by
  constructor
  · intro c k nn te hk
    simp [copy_item, hk]
  · intro es k nn te erase heq hnn hstr
    have hguard : (erase && !k.isStr) = false := by
      cases erase with
      | false => rfl
      | true => simp [hstr rfl]
    simp [copy_item, hguard, pyStr, hnn, heq]

/-- C6, witness: both guards at concrete inputs — renaming the integer
key 0 of a list is rejected, and renaming the dict key `"a"` to the
entered text `"a"` is a silent no-op. -/
theorem c6_rename_guards_witness :
    copy_item (.list [.int 7]) (.int 0) Option.none true
        (fun s => .str s) = .ok (.list [.int 7], .rejectedNonStrKey)
    ∧ copy_item (.dict [(.str "a", .int 1)]) (.str "a") (some "a") true
        (fun s => .str s) = .ok (.dict [(.str "a", .int 1)], .noop) := by
  constructor
  · exact c6_rename_guards.1 (.list [.int 7]) (.int 0) Option.none
      (fun s => .str s) rfl
  · exact c6_rename_guards.2 [(.str "a", .int 1)] (.str "a") "a"
      (fun s => .str s) true (by decide) (by decide) (fun _ => rfl)

/-- C9, counterexample to the claim as stated: a `ValueError` raised by
the attribute write is *not* silently discarded by `__setitem__` (its
first `except` clause lists only `TypeError`, `AttributeError`,
`NotImplementedError`), so it propagates whenever its message does not
contain `"cannot set values for"`. -/
theorem c9_counterexample :
    proxySetitem
      { getattrF := fun _ => .ok .none,
        setattrF := fun _ _ => .error ⟨.valueError, "boom"⟩ }
      "x" (.int 0)
      = .error ⟨.valueError, "boom"⟩ := by
  rfl

/-- C9 (amended): `__getitem__` returns the absent-value sentinel `None`
exactly when the attribute read raises one of `NotImplementedError`,
`AttributeError`, `TypeError`, `ValueError`, re-raising anything else;
`__setitem__` silently discards only `TypeError`, `AttributeError` and
`NotImplementedError` — *not* `ValueError` — plus any exception whose
message contains `"cannot set values for"`, and re-raises everything
else unchanged. -/
theorem c9_proxyobject_errors :
    (∀ (obj : PyObject) (key : String) (v : PyVal),
        obj.getattrF key = .ok v → proxyGetitem obj key = .ok v)
    ∧ (∀ (obj : PyObject) (key : String) (e : PyExc),
        obj.getattrF key = .error e →
        e.cls ∈ [PyExcClass.notImplementedError, .attributeError,
          .typeError, .valueError] →
        proxyGetitem obj key = .ok .none)
    ∧ (∀ (obj : PyObject) (key : String) (e : PyExc),
        obj.getattrF key = .error e →
        e.cls ∉ [PyExcClass.notImplementedError, .attributeError,
          .typeError, .valueError] →
        proxyGetitem obj key = .error e)
    ∧ (∀ (obj : PyObject) (key : String) (v : PyVal) (e : PyExc),
        obj.setattrF key v = .error e →
        e.cls ∈ [PyExcClass.typeError, .attributeError,
          .notImplementedError] →
        proxySetitem obj key v = .ok ())
    ∧ (∀ (obj : PyObject) (key : String) (v : PyVal) (e : PyExc),
        obj.setattrF key v = .error e →
        e.cls ∉ [PyExcClass.typeError, .attributeError,
          .notImplementedError] →
        hasSub "cannot set values for".data e.msg.data = true →
        proxySetitem obj key v = .ok ())
    ∧ (∀ (obj : PyObject) (key : String) (v : PyVal) (e : PyExc),
        obj.setattrF key v = .error e →
        e.cls ∉ [PyExcClass.typeError, .attributeError,
          .notImplementedError] →
        hasSub "cannot set values for".data e.msg.data = false →
        proxySetitem obj key v = .error e) := by
  have hmemG : ∀ (c : PyExcClass),
      c ∈ [PyExcClass.notImplementedError, .attributeError, .typeError,
        .valueError] ↔ getitemCaught c = true := by
    intro c
    cases c <;> simp [getitemCaught]
  have hmemS : ∀ (c : PyExcClass),
      c ∈ [PyExcClass.typeError, .attributeError, .notImplementedError]
        ↔ setitemCaught c = true := by
    intro c
    cases c <;> simp [setitemCaught]
  refine ⟨?_, ?_, ?_, ?_, ?_, ?_⟩
  · intro obj key v h
    simp [proxyGetitem, h]
  · intro obj key e h hc
    rw [hmemG] at hc
    simp [proxyGetitem, h, hc]
  · intro obj key e h hc
    rw [hmemG, Bool.not_eq_true] at hc
    simp [proxyGetitem, h, hc]
  · intro obj key v e h hc
    rw [hmemS] at hc
    simp [proxySetitem, h, hc]
  · intro obj key v e h hc hmsg
    rw [hmemS, Bool.not_eq_true] at hc
    simp [proxySetitem, h, hc, hmsg]
  · intro obj key v e h hc hmsg
    rw [hmemS, Bool.not_eq_true] at hc
    simp [proxySetitem, h, hc, hmsg]

/-- C9, witness: the amended characterization applied at concrete
objects — an `AttributeError` read yields `None`, a `TypeError` write is
discarded, and a `RuntimeError` write whose message contains
`"cannot set values for"` is discarded too. -/
theorem c9_proxyobject_errors_witness :
    proxyGetitem
        { getattrF := fun _ => .error ⟨.attributeError, "no attr"⟩,
          setattrF := fun _ _ => .ok () } "x" = .ok .none
    ∧ proxySetitem
        { getattrF := fun _ => .ok .none,
          setattrF := fun _ _ => .error ⟨.typeError, "ro"⟩ } "x" (.int 1)
        = .ok ()
    ∧ proxySetitem
        { getattrF := fun _ => .ok .none,
          setattrF := fun _ _ =>
            .error ⟨.runtimeError, "cannot set values for this"⟩ }
        "x" (.int 1) = .ok () := by
  refine ⟨?_, ?_, ?_⟩
  · exact c9_proxyobject_errors.2.1 _ "x" ⟨.attributeError, "no attr"⟩
      rfl (by decide)
  · exact c9_proxyobject_errors.2.2.2.1 _ "x" (.int 1) ⟨.typeError, "ro"⟩
      rfl (by decide)
  · exact c9_proxyobject_errors.2.2.2.2.1 _ "x" (.int 1)
      ⟨.runtimeError, "cannot set values for this"⟩ rfl (by decide)
      (by decide)

/-! ## Sort state lemmas (claim C4) -/

theorem sortCore_data (st : ModelState) (col : Int) (ord : SortOrder) :
    (sortCore st col ord).data = st.data := by
  unfold sortCore
  simp only
  split
  · split
    · simp [set_size_and_type_data]
    · rfl
  · split
    · rfl
    · split
      · rfl
      · split
        · rfl
        · split <;> rfl

theorem sortCore_prev (st : ModelState) (col : Int) (ord : SortOrder) :
    (sortCore st col ord).previous_sort = col := by
  unfold sortCore
  simp only
  split
  · split
    · simp [set_size_and_type_prev]
    · rfl
  · split
    · rfl
    · split
      · rfl
      · split
        · rfl
        · split <;> rfl

theorem sortCore_neg1_keys (st : ModelState) (ord : SortOrder)
    (es : List (PyVal × PyVal)) (h : st.data = .dict es) :
    (sortCore st (-1) ord).keys = es.map Prod.fst := by
  unfold sortCore
  simp only [h]
  rw [if_pos]
  · simp [set_size_and_type_keys]
  · rfl

theorem set_data_dict_keys (es : List (PyVal × PyVal)) (p : Int) :
    (set_data (.dict es) p).keys = es.map Prod.fst := by
  simp [set_data, set_size_and_type_keys]

theorem set_data_dict_data (es : List (PyVal × PyVal)) (p : Int) :
    (set_data (.dict es) p).data = .dict es := by
  simp [set_data, set_size_and_type_data]

/-- C4: the three-state cycle of the name column.  For a dict, sorting
column 0 ascending twice restores exactly the key order captured at
initialization (the dict's insertion order), because the second click
fires the dict-cycle guard and re-derives `keys` from the retained dict
snapshot.  For any non-dict collection the guard can never fire (so the
return-to-insertion-order state is unreachable), and even a direct
column -1 sort leaves `keys` untouched. -/
theorem c4_dict_sort_cycle :
    (∀ (es : List (PyVal × PyVal)),
        (initializeModel (.dict es)).keys = es.map Prod.fst
          ∧ (modelSort (modelSort (initializeModel (.dict es)) 0
              .ascending true) 0 .ascending true).keys = es.map Prod.fst)
    ∧ (∀ (st : ModelState) (col : Int) (ord : SortOrder) (hh : Bool),
        st.data.isDict = false → sortRedirects st col ord hh = false)
    ∧ (∀ (st : ModelState) (ord : SortOrder),
        st.data.isDict = false → (sortCore st (-1) ord).keys = st.keys) := by
  refine ⟨?_, ?_, ?_⟩
  · intro es
    refine ⟨set_data_dict_keys es (-1), ?_⟩
    have hprev0 : (initializeModel (.dict es)).previous_sort = -1 :=
      (set_data_fields (.dict es) (-1)).2.2.2.2.2.2
    have hr1 : sortRedirects (initializeModel (.dict es)) 0 .ascending true
        = false := by
      simp [sortRedirects, hprev0]
    have hstep1 :
        modelSort (initializeModel (.dict es)) 0 .ascending true
          = sortCore (initializeModel (.dict es)) 0 .ascending := by
      unfold modelSort
      rw [hr1]
      simp
    rw [hstep1]
    have hdata1 : (sortCore (initializeModel (.dict es)) 0
        .ascending).data = .dict es := by
      rw [sortCore_data, initializeModel, set_data_dict_data]
    have hprev1 : (sortCore (initializeModel (.dict es)) 0
        .ascending).previous_sort = 0 := sortCore_prev _ _ _
    have hr2 : sortRedirects (sortCore (initializeModel (.dict es)) 0
        .ascending) 0 .ascending true = true := by
      simp [sortRedirects, hprev1, hdata1, Collection.isDict]
    unfold modelSort
    rw [hr2]
    simp only [if_true]
    exact sortCore_neg1_keys _ _ es hdata1
  · intro st col ord hh h
    simp [sortRedirects, h]
  · intro st ord h
    unfold sortCore
    simp only
    rw [if_pos]
    · cases hd : st.data with
      | dict es => rw [hd] at h; simp [Collection.isDict] at h
      | tuple xs => rfl
      | list xs => rfl
      | set xs => rfl
      | frozenset xs => rfl
    · rfl

/-- C4, witness: the cycle on a concrete two-entry dict, and the guard
refusing to fire on a concrete list. -/
theorem c4_dict_sort_cycle_witness :
    (modelSort (modelSort (initializeModel
        (.dict [(.str "b", .int 1), (.str "a", .int 2)])) 0 .ascending true)
        0 .ascending true).keys = [.str "b", .str "a"]
    ∧ sortRedirects (initializeModel (.list [.int 0])) 0 .ascending true
        = false := by
  constructor
  · exact (c4_dict_sort_cycle.1 [(.str "b", .int 1), (.str "a", .int 2)]).2
  · exact c4_dict_sort_cycle.2.1 (initializeModel (.list [.int 0])) 0
      .ascending true (by decide)

/-! ## Pairwise removal (claim C5) -/

/-- `sorted([x, y], reverse=True)` explicitly: decided by one `x < y`
comparison. -/
theorem pySorted_pair (x y : PyVal) :
    pySorted pyLtE true [x, y]
      = match pyLtE x y with
        | .ok true => .ok [y, x]
        | .ok false => .ok [x, y]
        | .error e => .error e := by
  unfold pySorted sortedAscE
  simp only [List.foldlM, insertE]
  cases h : pyLtE x y with
  | error e => simp [h, Bind.bind, Except.bind, pure, Except.pure, insertE]
  | ok b =>
      cases b <;>
        simp [h, Bind.bind, Except.bind, pure, Except.pure, insertE]

theorem pyEq_str_iff (v : PyVal) (x : String) :
    pyEq v (.str x) = true ↔ v = .str x := by
  cases v <;> simp [pyEq]

theorem pyEq_int_iff (v : PyVal) (n : Int) :
    pyEq v (.int n) = true ↔ v = .int n := by
  cases v <;> simp [pyEq]

/-- Erasing the entry of one key keeps every entry of a key no value is
`==` to both of. -/
theorem any_eraseP_excl (u v : PyVal)
    (hexcl : ∀ w : PyVal, pyEq w u = true → pyEq w v = false) :
    ∀ (es : List (PyVal × PyVal)),
      es.any (fun e => pyEq e.1 v) = true →
      (es.eraseP (fun e => pyEq e.1 u)).any
          (fun e => pyEq e.1 v) = true := by
  intro es
  induction es with
  | nil => simp
  | cons e es ih =>
      intro hb
      by_cases ha : pyEq e.1 u = true
      · simp only [List.eraseP_cons, ha, cond_true]
        simp only [List.any_cons, hexcl e.1 ha, Bool.false_or] at hb
        exact hb
      · simp only [List.eraseP_cons, ha, cond_false]
        simp only [List.any_cons, Bool.or_eq_true] at hb ⊢
        rcases hb with hb | hb
        · exact Or.inl hb
        · exact Or.inr (ih hb)

theorem eraseP_length_of_any (p : PyVal × PyVal → Bool) :
    ∀ (es : List (PyVal × PyVal)), es.any p = true →
      (es.eraseP p).length + 1 = es.length := by
  intro es h
  rcases List.any_eq_true.mp h with ⟨e, hmem, hpe⟩
  exact List.length_eraseP_add_one hmem hpe

/-- The two `pop` iterations of `remove_values` on a dict with both keys
present (and no entry matching both): each pop erases exactly its own
entry, two rows are lost. -/
theorem dict_remove_pair (es : List (PyVal × PyVal)) (u v : PyVal)
    (hexcl : ∀ w : PyVal, pyEq w u = true → pyEq w v = false)
    (hu : es.any (fun e => pyEq e.1 u) = true)
    (hv : es.any (fun e => pyEq e.1 v) = true) :
    List.foldlM (fun d k => Collection.pop d k) (Collection.dict es) [u, v]
        = .ok (.dict ((es.eraseP (fun e => pyEq e.1 u)).eraseP
            (fun e => pyEq e.1 v)))
      ∧ ((es.eraseP (fun e => pyEq e.1 u)).eraseP
          (fun e => pyEq e.1 v)).length + 2 = es.length := by
  have hv' := any_eraseP_excl u v hexcl es hv
  constructor
  · have p1 : (Collection.dict es).pop u
        = .ok (.dict (es.eraseP (fun e => pyEq e.1 u))) := by
      simp [Collection.pop, hu]
    have p2 : (Collection.dict (es.eraseP (fun e => pyEq e.1 u))).pop v
        = .ok (.dict ((es.eraseP (fun e => pyEq e.1 u)).eraseP
            (fun e => pyEq e.1 v))) := by
      simp [Collection.pop, hv']
    simp [List.foldlM, p1, p2, Bind.bind, Except.bind, pure, Except.pure]
  · have h1 := eraseP_length_of_any (fun e => pyEq e.1 u) es hu
    have h2 := eraseP_length_of_any (fun e => pyEq e.1 v) _ hv'
    omega

/-- C5 (amended): `remove_values` iterates `sorted(keys, reverse=True)`, a
function of the argument *set*, so both argument orders behave
identically; but only when the two keys are mutually comparable does the
claimed removal happen.  For a dict with two distinct present string keys,
for a dict with two distinct present int keys, and for a list with two
distinct valid positions, both orders produce identical resulting
collections with `total_row_count - 2` rows.  For a key pair of
incomparable types (an int key and a string key), `sorted` itself raises
`TypeError` — under either argument order, before any mutation — so no
rows are removed at all, refuting the claim's unconditional
`total_row_count - 2` conclusion (see the counterexample). -/
theorem c5_remove_order_independent :
    (∀ (es : List (PyVal × PyVal)) (a b : String),
        a ≠ b →
        es.any (fun e => pyEq e.1 (.str a)) = true →
        es.any (fun e => pyEq e.1 (.str b)) = true →
        remove_values (.dict es) [.str a, .str b]
            = remove_values (.dict es) [.str b, .str a]
          ∧ ∃ es', remove_values (.dict es) [.str a, .str b]
                = .ok (.dict es')
              ∧ es'.length + 2 = es.length
              ∧ (set_data (.dict es') 0).total_rows + 2 = es.length)
    ∧ (∀ (es : List (PyVal × PyVal)) (n m : Int),
        n ≠ m →
        es.any (fun e => pyEq e.1 (.int n)) = true →
        es.any (fun e => pyEq e.1 (.int m)) = true →
        remove_values (.dict es) [.int n, .int m]
            = remove_values (.dict es) [.int m, .int n]
          ∧ ∃ es', remove_values (.dict es) [.int n, .int m]
                = .ok (.dict es')
              ∧ es'.length + 2 = es.length
              ∧ (set_data (.dict es') 0).total_rows + 2 = es.length)
    ∧ (∀ (xs : List PyVal) (i j : Nat),
        i ≠ j → i < xs.length → j < xs.length →
        remove_values (.list xs) [.int (Int.ofNat i), .int (Int.ofNat j)]
            = remove_values (.list xs) [.int (Int.ofNat j), .int (Int.ofNat i)]
          ∧ ∃ ys, remove_values (.list xs)
                [.int (Int.ofNat i), .int (Int.ofNat j)] = .ok (.list ys)
              ∧ ys.length + 2 = xs.length
              ∧ (set_data (.list ys) 0).total_rows + 2 = xs.length)
    ∧ (∀ (c : Collection) (n : Int) (s : String),
        remove_values c [.int n, .str s]
            = .error ⟨.typeError, "'<' not supported between instances"⟩
          ∧ remove_values c [.str s, .int n]
            = .error ⟨.typeError, "'<' not supported between instances"⟩) := by
  refine ⟨?_, ?_, ?_, ?_⟩
  · intro es a b hne ha hb
    have hexcl_ab : ∀ w : PyVal, pyEq w (.str a) = true →
        pyEq w (.str b) = false := by
      intro w hw
      rw [(pyEq_str_iff w a).mp hw]
      simp [pyEq]
      exact fun h => hne h
    have hexcl_ba : ∀ w : PyVal, pyEq w (.str b) = true →
        pyEq w (.str a) = false := by
      intro w hw
      rw [(pyEq_str_iff w b).mp hw]
      simp [pyEq]
      exact fun h => hne h.symm
    rcases lt_or_gt_of_ne hne with hab | hab
    · have hs1 : pySorted pyLtE true [PyVal.str a, PyVal.str b]
          = .ok [PyVal.str b, PyVal.str a] := by
        rw [pySorted_pair]
        simp [pyLtE, hab]
      have hs2 : pySorted pyLtE true [PyVal.str b, PyVal.str a]
          = .ok [PyVal.str b, PyVal.str a] := by
        rw [pySorted_pair]
        simp [pyLtE, not_lt_of_gt hab]
      obtain ⟨hf, hl⟩ := dict_remove_pair es (.str b) (.str a) hexcl_ba hb ha
      have e1 : remove_values (.dict es) [.str a, .str b]
          = .ok (.dict ((es.eraseP (fun e => pyEq e.1 (.str b))).eraseP
              (fun e => pyEq e.1 (.str a)))) := by
        unfold remove_values
        rw [hs1]
        simpa [Bind.bind, Except.bind] using hf
      have e2 : remove_values (.dict es) [.str b, .str a]
          = .ok (.dict ((es.eraseP (fun e => pyEq e.1 (.str b))).eraseP
              (fun e => pyEq e.1 (.str a)))) := by
        unfold remove_values
        rw [hs2]
        simpa [Bind.bind, Except.bind] using hf
      refine ⟨e1.trans e2.symm, _, e1, hl, ?_⟩
      have htot := (set_data_fields (.dict
        ((es.eraseP (fun e => pyEq e.1 (.str b))).eraseP
          (fun e => pyEq e.1 (.str a)))) 0).2.1
      simp only [Collection.len] at htot
      omega
    · have hs1 : pySorted pyLtE true [PyVal.str a, PyVal.str b]
          = .ok [PyVal.str a, PyVal.str b] := by
        rw [pySorted_pair]
        simp [pyLtE, not_lt_of_gt hab]
      have hs2 : pySorted pyLtE true [PyVal.str b, PyVal.str a]
          = .ok [PyVal.str a, PyVal.str b] := by
        rw [pySorted_pair]
        simp [pyLtE, hab]
      obtain ⟨hf, hl⟩ := dict_remove_pair es (.str a) (.str b) hexcl_ab ha hb
      have e1 : remove_values (.dict es) [.str a, .str b]
          = .ok (.dict ((es.eraseP (fun e => pyEq e.1 (.str a))).eraseP
              (fun e => pyEq e.1 (.str b)))) := by
        unfold remove_values
        rw [hs1]
        simpa [Bind.bind, Except.bind] using hf
      have e2 : remove_values (.dict es) [.str b, .str a]
          = .ok (.dict ((es.eraseP (fun e => pyEq e.1 (.str a))).eraseP
              (fun e => pyEq e.1 (.str b)))) := by
        unfold remove_values
        rw [hs2]
        simpa [Bind.bind, Except.bind] using hf
      refine ⟨e1.trans e2.symm, _, e1, hl, ?_⟩
      have htot := (set_data_fields (.dict
        ((es.eraseP (fun e => pyEq e.1 (.str a))).eraseP
          (fun e => pyEq e.1 (.str b)))) 0).2.1
      simp only [Collection.len] at htot
      omega
  · intro es n m hne hn hm
    have hexcl_nm : ∀ w : PyVal, pyEq w (.int n) = true →
        pyEq w (.int m) = false := by
      intro w hw
      rw [(pyEq_int_iff w n).mp hw]
      simp [pyEq]
      exact fun h => hne h
    have hexcl_mn : ∀ w : PyVal, pyEq w (.int m) = true →
        pyEq w (.int n) = false := by
      intro w hw
      rw [(pyEq_int_iff w m).mp hw]
      simp [pyEq]
      exact fun h => hne h.symm
    rcases lt_or_gt_of_ne hne with hnm | hnm
    · have hs1 : pySorted pyLtE true [PyVal.int n, PyVal.int m]
          = .ok [PyVal.int m, PyVal.int n] := by
        rw [pySorted_pair]
        simp [pyLtE, hnm]
      have hs2 : pySorted pyLtE true [PyVal.int m, PyVal.int n]
          = .ok [PyVal.int m, PyVal.int n] := by
        rw [pySorted_pair]
        simp [pyLtE, not_lt_of_gt hnm]
      obtain ⟨hf, hl⟩ := dict_remove_pair es (.int m) (.int n) hexcl_mn hm hn
      have e1 : remove_values (.dict es) [.int n, .int m]
          = .ok (.dict ((es.eraseP (fun e => pyEq e.1 (.int m))).eraseP
              (fun e => pyEq e.1 (.int n)))) := by
        unfold remove_values
        rw [hs1]
        simpa [Bind.bind, Except.bind] using hf
      have e2 : remove_values (.dict es) [.int m, .int n]
          = .ok (.dict ((es.eraseP (fun e => pyEq e.1 (.int m))).eraseP
              (fun e => pyEq e.1 (.int n)))) := by
        unfold remove_values
        rw [hs2]
        simpa [Bind.bind, Except.bind] using hf
      refine ⟨e1.trans e2.symm, _, e1, hl, ?_⟩
      have htot := (set_data_fields (.dict
        ((es.eraseP (fun e => pyEq e.1 (.int m))).eraseP
          (fun e => pyEq e.1 (.int n)))) 0).2.1
      simp only [Collection.len] at htot
      omega
    · have hs1 : pySorted pyLtE true [PyVal.int n, PyVal.int m]
          = .ok [PyVal.int n, PyVal.int m] := by
        rw [pySorted_pair]
        simp [pyLtE, not_lt_of_gt hnm]
      have hs2 : pySorted pyLtE true [PyVal.int m, PyVal.int n]
          = .ok [PyVal.int n, PyVal.int m] := by
        rw [pySorted_pair]
        simp [pyLtE, hnm]
      obtain ⟨hf, hl⟩ := dict_remove_pair es (.int n) (.int m) hexcl_nm hn hm
      have e1 : remove_values (.dict es) [.int n, .int m]
          = .ok (.dict ((es.eraseP (fun e => pyEq e.1 (.int n))).eraseP
              (fun e => pyEq e.1 (.int m)))) := by
        unfold remove_values
        rw [hs1]
        simpa [Bind.bind, Except.bind] using hf
      have e2 : remove_values (.dict es) [.int m, .int n]
          = .ok (.dict ((es.eraseP (fun e => pyEq e.1 (.int n))).eraseP
              (fun e => pyEq e.1 (.int m)))) := by
        unfold remove_values
        rw [hs2]
        simpa [Bind.bind, Except.bind] using hf
      refine ⟨e1.trans e2.symm, _, e1, hl, ?_⟩
      have htot := (set_data_fields (.dict
        ((es.eraseP (fun e => pyEq e.1 (.int n))).eraseP
          (fun e => pyEq e.1 (.int m)))) 0).2.1
      simp only [Collection.len] at htot
      omega
  · intro xs i j hne hi hj
    have hfoldL : ∀ (m k : Nat), k < m → m < xs.length →
        List.foldlM (fun d kk => Collection.pop d kk) (Collection.list xs)
            [PyVal.int (Int.ofNat m), PyVal.int (Int.ofNat k)]
          = .ok (.list ((xs.eraseIdx m).eraseIdx k)) := by
      intro m k hkm hm
      have hlen1 := List.length_eraseIdx_add_one hm
      have hk : k < (xs.eraseIdx m).length := by omega
      have p1 : (Collection.list xs).pop (.int (Int.ofNat m))
          = .ok (.list (xs.eraseIdx m)) := by
        simp [Collection.pop, hm]
      have p2 : (Collection.list (xs.eraseIdx m)).pop (.int (Int.ofNat k))
          = .ok (.list ((xs.eraseIdx m).eraseIdx k)) := by
        simp [Collection.pop, hk]
      simp only [Int.ofNat_eq_coe] at p1 p2
      simp [List.foldlM, p1, p2, Bind.bind, Except.bind, pure, Except.pure]
    have hlenL : ∀ (m k : Nat), k < m → m < xs.length →
        ((xs.eraseIdx m).eraseIdx k).length + 2 = xs.length := by
      intro m k hkm hm
      have h1 := List.length_eraseIdx_add_one hm
      have hk : k < (xs.eraseIdx m).length := by omega
      have h2 := List.length_eraseIdx_add_one hk
      omega
    rcases Nat.lt_or_ge i j with hij | hge
    · have hs1 : pySorted pyLtE true
            [PyVal.int (Int.ofNat i), PyVal.int (Int.ofNat j)]
          = .ok [PyVal.int (Int.ofNat j), PyVal.int (Int.ofNat i)] := by
        rw [pySorted_pair]
        simp [pyLtE, Int.ofNat_lt, hij]
      have hs2 : pySorted pyLtE true
            [PyVal.int (Int.ofNat j), PyVal.int (Int.ofNat i)]
          = .ok [PyVal.int (Int.ofNat j), PyVal.int (Int.ofNat i)] := by
        rw [pySorted_pair]
        simp [pyLtE, Int.ofNat_lt, Nat.not_lt_of_gt hij]
      have hf := hfoldL j i hij hj
      have e1 : remove_values (.list xs)
            [.int (Int.ofNat i), .int (Int.ofNat j)]
          = .ok (.list ((xs.eraseIdx j).eraseIdx i)) := by
        unfold remove_values
        rw [hs1]
        simpa [Bind.bind, Except.bind] using hf
      have e2 : remove_values (.list xs)
            [.int (Int.ofNat j), .int (Int.ofNat i)]
          = .ok (.list ((xs.eraseIdx j).eraseIdx i)) := by
        unfold remove_values
        rw [hs2]
        simpa [Bind.bind, Except.bind] using hf
      have hl := hlenL j i hij hj
      refine ⟨e1.trans e2.symm, _, e1, hl, ?_⟩
      have htot := (set_data_fields (.list ((xs.eraseIdx j).eraseIdx i))
        0).2.1
      simp only [Collection.len] at htot
      omega
    · have hji : j < i := by omega
      have hs1 : pySorted pyLtE true
            [PyVal.int (Int.ofNat i), PyVal.int (Int.ofNat j)]
          = .ok [PyVal.int (Int.ofNat i), PyVal.int (Int.ofNat j)] := by
        rw [pySorted_pair]
        simp [pyLtE, Int.ofNat_lt, Nat.not_lt_of_gt hji]
      have hs2 : pySorted pyLtE true
            [PyVal.int (Int.ofNat j), PyVal.int (Int.ofNat i)]
          = .ok [PyVal.int (Int.ofNat i), PyVal.int (Int.ofNat j)] := by
        rw [pySorted_pair]
        simp [pyLtE, Int.ofNat_lt, hji]
      have hf := hfoldL i j hji hi
      have e1 : remove_values (.list xs)
            [.int (Int.ofNat i), .int (Int.ofNat j)]
          = .ok (.list ((xs.eraseIdx i).eraseIdx j)) := by
        unfold remove_values
        rw [hs1]
        simpa [Bind.bind, Except.bind] using hf
      have e2 : remove_values (.list xs)
            [.int (Int.ofNat j), .int (Int.ofNat i)]
          = .ok (.list ((xs.eraseIdx i).eraseIdx j)) := by
        unfold remove_values
        rw [hs2]
        simpa [Bind.bind, Except.bind] using hf
      have hl := hlenL i j hji hi
      refine ⟨e1.trans e2.symm, _, e1, hl, ?_⟩
      have htot := (set_data_fields (.list ((xs.eraseIdx i).eraseIdx j))
        0).2.1
      simp only [Collection.len] at htot
      omega
  · intro c n s
    have h1 : pySorted pyLtE true [PyVal.int n, PyVal.str s]
        = .error ⟨.typeError, "'<' not supported between instances"⟩ := by
      rw [pySorted_pair]
      simp [pyLtE]
    have h2 : pySorted pyLtE true [PyVal.str s, PyVal.int n]
        = .error ⟨.typeError, "'<' not supported between instances"⟩ := by
      rw [pySorted_pair]
      simp [pyLtE]
    constructor
    · unfold remove_values
      rw [h1]
      rfl
    · unfold remove_values
      rw [h2]
      rfl

/-- C5, counterexample to the claim as stated: on a fresh two-entry dict
whose keys are the int `1` and the string `"a"` (a legitimate Python dict
and a selectable pair of rows), `remove({1, "a"})` does not produce a
collection with `total_row_count - 2` rows — `sorted(keys, reverse=True)`
inside `remove_values` raises `TypeError` on the incomparable key pair
before any `pop` runs. -/
theorem c5_counterexample :
    remove_values (.dict [(.int 1, .int 10), (.str "a", .int 20)])
        [.int 1, .str "a"]
      = .error ⟨.typeError, "'<' not supported between instances"⟩ := by
  rfl

/-- C5, witness: the comparable cases at concrete inputs — string keys of
a three-entry dict, int keys of a two-entry dict, and positions of a
four-element list, each removed in both orders. -/
theorem c5_remove_order_independent_witness :
    remove_values (.dict [(.str "a", .int 1), (.str "b", .int 2),
        (.str "c", .int 3)]) [.str "a", .str "b"]
      = remove_values (.dict [(.str "a", .int 1), (.str "b", .int 2),
        (.str "c", .int 3)]) [.str "b", .str "a"]
    ∧ remove_values (.dict [(.int 4, .int 1), (.int 7, .int 2)])
        [.int 4, .int 7]
      = remove_values (.dict [(.int 4, .int 1), (.int 7, .int 2)])
        [.int 7, .int 4]
    ∧ remove_values (.list [.int 10, .int 11, .int 12, .int 13])
        [.int (Int.ofNat 0), .int (Int.ofNat 2)]
      = remove_values (.list [.int 10, .int 11, .int 12, .int 13])
        [.int (Int.ofNat 2), .int (Int.ofNat 0)] := by
  refine ⟨?_, ?_, ?_⟩
  · exact (c5_remove_order_independent.1
      [(.str "a", .int 1), (.str "b", .int 2), (.str "c", .int 3)]
      "a" "b" (by decide) (by decide) (by decide)).1
  · exact (c5_remove_order_independent.2.1
      [(.int 4, .int 1), (.int 7, .int 2)] 4 7
      (by decide) (by decide) (by decide)).1
  · exact (c5_remove_order_independent.2.2.1
      [.int 10, .int 11, .int 12, .int 13] 0 2
      (by decide) (by decide) (by decide)).1

/-! ## The proxy comparator (claim C7) -/

mutual

/-- Within the embedded value universe, `<` raises only `TypeError`. -/
theorem pyLtE_error_cls : ∀ (a b : PyVal) (e : PyExc),
    pyLtE a b = .error e → e.cls = .typeError
  | .int _, .int _, e => by simp [pyLtE]
  | .str _, .str _, e => by simp [pyLtE]
  | .bytes _, .bytes _, e => by simp [pyLtE]
  | .list as, .list bs, e => fun h =>
      pyLtListE_error_cls as bs e (by simpa [pyLtE] using h)
  | .tuple as, .tuple bs, e => fun h =>
      pyLtListE_error_cls as bs e (by simpa [pyLtE] using h)
  | .int _, .str _, e => by simp [pyLtE]; rintro rfl; rfl
  | .int _, .bytes _, e => by simp [pyLtE]; rintro rfl; rfl
  | .int _, .none, e => by simp [pyLtE]; rintro rfl; rfl
  | .int _, .list _, e => by simp [pyLtE]; rintro rfl; rfl
  | .int _, .tuple _, e => by simp [pyLtE]; rintro rfl; rfl
  | .str _, .int _, e => by simp [pyLtE]; rintro rfl; rfl
  | .str _, .bytes _, e => by simp [pyLtE]; rintro rfl; rfl
  | .str _, .none, e => by simp [pyLtE]; rintro rfl; rfl
  | .str _, .list _, e => by simp [pyLtE]; rintro rfl; rfl
  | .str _, .tuple _, e => by simp [pyLtE]; rintro rfl; rfl
  | .bytes _, .int _, e => by simp [pyLtE]; rintro rfl; rfl
  | .bytes _, .str _, e => by simp [pyLtE]; rintro rfl; rfl
  | .bytes _, .none, e => by simp [pyLtE]; rintro rfl; rfl
  | .bytes _, .list _, e => by simp [pyLtE]; rintro rfl; rfl
  | .bytes _, .tuple _, e => by simp [pyLtE]; rintro rfl; rfl
  | .none, _, e => by simp [pyLtE]; rintro rfl; rfl
  | .list _, .int _, e => by simp [pyLtE]; rintro rfl; rfl
  | .list _, .str _, e => by simp [pyLtE]; rintro rfl; rfl
  | .list _, .bytes _, e => by simp [pyLtE]; rintro rfl; rfl
  | .list _, .none, e => by simp [pyLtE]; rintro rfl; rfl
  | .list _, .tuple _, e => by simp [pyLtE]; rintro rfl; rfl
  | .tuple _, .int _, e => by simp [pyLtE]; rintro rfl; rfl
  | .tuple _, .str _, e => by simp [pyLtE]; rintro rfl; rfl
  | .tuple _, .bytes _, e => by simp [pyLtE]; rintro rfl; rfl
  | .tuple _, .none, e => by simp [pyLtE]; rintro rfl; rfl
  | .tuple _, .list _, e => by simp [pyLtE]; rintro rfl; rfl

/-- Sequence comparison raises only `TypeError`. -/
theorem pyLtListE_error_cls : ∀ (as bs : List PyVal) (e : PyExc),
    pyLtListE as bs = .error e → e.cls = .typeError
  | [], [], e => by simp [pyLtListE]
  | [], _ :: _, e => by simp [pyLtListE]
  | _ :: _, [], e => by simp [pyLtListE]
  | a :: as, b :: bs, e => by
      simp only [pyLtListE]
      split
      · exact pyLtListE_error_cls as bs e
      · exact pyLtE_error_cls a b e

end

